import Mathlib

/-!
Verification development for the GitHub-OpenSource-Analysis repository.

The Python sources (`src/github_api.py`, `src/data_collection.py`,
`src/repos_extractor.py`) are shallowly embedded below: Python `str` values
that undergo character-level operations are modelled as `List Char`
(`PyStr`), dictionaries as association lists, the remote GitHub API as
oracle functions, and `None`-returning fallible calls as `Option`.
Stateful loops are embedded as structurally recursive functions whose
extra counter argument is instantiated exactly so that the recursion
follows the source loop's own exit condition.
-/

namespace GhAnalysis

/-- Python strings, modelled character by character. -/
abbrev PyStr := List Char

/-- Python's `str.lower()` (per-character lowering, as used in the sources). -/
def pyLower (s : PyStr) : PyStr := s.map Char.toLower

/-! ## String literal constants appearing in the sources -/

def travisYml : PyStr := ".travis.yml".toList
def gitlabYml : PyStr := ".gitlab-ci.yml".toList
def droneYml : PyStr := ".drone.yml".toList
def circleYml : PyStr := ".circleci/config.yml".toList
def ghWorkflows : PyStr := ".github/workflows".toList
def jenkinsfileName : PyStr := "Jenkinsfile".toList

def travisCI : String := "Travis CI"
def gitlabCI : String := "GitLab CI"
def droneCI : String := "Drone CI"
def circleCIName : String := "CircleCI"
def githubActionsName : String := "GitHub Actions"
def jenkinsName : String := "Jenkins"

def keyErrorRateLimitReset : String := "KeyError: X-RateLimit-Reset"

/-! ## Request client: `GitHubAPI._handle_api_errors` (github_api.py lines 75-121)

An HTTP response is modelled with its status code, the optional integer
value of the `X-RateLimit-Reset` header (absent headers raise `KeyError`
on subscript in Python, modelled as `Except.error`), and the already
decoded JSON body.  The returned value `Except.ok v` models a normal
return (`v = some payload` for 200, `v = none` for every other status);
`Except.error` models an uncaught exception escaping the handler. -/

structure HttpResponse (α : Type) where
  status : Nat
  rateLimitReset : Option Int
  body : α

/-- Embedding of `_handle_api_errors`.  `now` is `time.time()`; the
`wait_time` computed on 403 is only logged, so it does not appear in the
result, but reading the header is a Python subscript that raises
`KeyError` when the header is absent. -/
def handleApiErrors {α : Type} (r : HttpResponse α) (now : Int) :
    Except String (Option α) :=
  if r.status = 200 then
    Except.ok (some r.body)
  else if r.status = 403 then
    match r.rateLimitReset with
    | some reset =>
        -- wait_time = (reset - now) / 60, logged only
        let _waitTime := reset - now
        Except.ok none
    | none => Except.error keyErrorRateLimitReset
  else if r.status = 404 then Except.ok none
  else if r.status = 451 then Except.ok none
  else if r.status = 401 then Except.ok none
  else if r.status = 204 then Except.ok none
  else if r.status = 409 then Except.ok none
  else Except.ok none

/-! ## CI tool detection: `GitHubRepoExtractor._get_ci_cd_tool`
(repos_extractor.py lines 175-193)

The source iterates over `self.row["filenames"]`, but every arm of the
`if`/`elif`/`else` chain inside the loop body ends in `return`, so the
loop body runs at most once: the decision is made from the first entry
alone.  The embedding mirrors that: the tail of the list is never
inspected.  An empty list falls off the loop and returns `None`. -/
def getCiCdTool : List PyStr → Option String
  | [] => none
  | f :: _rest =>
    if pyLower f = travisYml then some travisCI
    else if pyLower f = gitlabYml then some gitlabCI
    else if pyLower f = droneYml then some droneCI
    else if pyLower f = circleYml then some circleCIName
    else if pyLower f = ghWorkflows then some githubActionsName
    else if pyLower f = jenkinsfileName then some jenkinsName
    else none

/-! ## Dependency extraction: `GitHubRepoExtractor._get_dependencies`
(repos_extractor.py lines 157-173)

The SBOM response is modelled as the list of `package["name"]` strings of
`data["sbom"]["packages"]`; a failed fetch is `none`.  (`if data:` on a
non-`None` response dict is always truthy, so an empty package list still
takes the success branch.) -/

/-- `pkg.split(':')[-1]`: the segment after the last colon (Python's
`split` on a string with no separator occurrence returns the whole
string, matching `getLastD s`). -/
def lastColonSeg (s : PyStr) : PyStr := (s.splitOn ':').getLastD s

/-- Embedding of `_get_dependencies`: normalize every package name with
`split(':')[-1]`, then drop the first entry (`packages_names[1:]`). -/
def getDependencies (sbom : Option (List PyStr)) : Option (List PyStr) :=
  match sbom with
  | some packages =>
      let packagesNames := packages.map lastColonSeg
      some (packagesNames.drop 1)
  | none => none

/-- The spec-side reading of the same sentence: drop the first package of
the manifest, then normalize each remaining name. -/
def dropThenNormalize (packages : List PyStr) : List PyStr :=
  (packages.drop 1).map lastColonSeg

/-! ## Column schemas (data_collection.py lines 18-21) -/

def loginCol : String := "login"
def urlCol : String := "url"
def repoNameCol : String := "repo_name"
def repoHtmlUrlCol : String := "repo_html_url"
def languageCol : String := "language"
def topicsCol : String := "topics"
def repoDescriptionCol : String := "repo_description"
def openIssuesCol : String := "open_issues_count"
def forksCol : String := "forks_count"
def stargazersCol : String := "stargazers_count"
def lastCommitCol : String := "last_repo_commit_date"
def licenseCol : String := "license"

def EGY_USERS_COLS : List String := [loginCol, urlCol]

def REPO_COLS : List String :=
  [loginCol, repoNameCol, repoHtmlUrlCol, languageCol, topicsCol,
   repoDescriptionCol, openIssuesCol, forksCol, stargazersCol,
   lastCommitCol, licenseCol]

/-- The dict comprehension of data_collection.py line 71:
`{k: v for k, v in item.items() if k in writer.fieldnames}`.
Items are association lists with `String` keys and payload values of an
arbitrary type `α`; insertion order is preserved, as in Python. -/
def projectRow {α : Type} (cols : List String) (item : List (String × α)) :
    List (String × α) :=
  item.filter (fun kv => decide (kv.1 ∈ cols))

/-! ## User-search collector: `scrap_egy_contributors`
(data_collection.py lines 33-85)

The simulated search API is a total-count plus a page-indexed item
function; a response dict `{"total_count": ..., "items": [...]}` is
always truthy, so the success branch is always taken (the claims about
this loop presuppose a simulated API with no transient failures).

The loop requests page `p`, writes the projection of each item, advances
`page`, recomputes `max_page = total_count // 100 + 1` and breaks once
`page > max_page`.  The embedding keeps that break condition verbatim and
supplies evaluation fuel `max_page - startPage`, which is exactly the
number of iterations the loop performs beyond the first: the fuel-0 arm
coincides with the break arm at every reachable call. -/

structure SearchApi (α : Type) where
  totalCount : Nat
  items : Nat → List (List (String × α))

def scrapEgyAux {α : Type} (api : SearchApi α) :
    Nat → Nat → List Nat × List (List (String × α))
  | page, 0 => ([page], (api.items page).map (projectRow EGY_USERS_COLS))
  | page, fuel + 1 =>
    let rows := (api.items page).map (projectRow EGY_USERS_COLS)
    if page + 1 > api.totalCount / 100 + 1 then ([page], rows)
    else
      let r := scrapEgyAux api (page + 1) fuel
      (page :: r.1, rows ++ r.2)

/-- One run of `scrap_egy_contributors` against a simulated API:
first component is the list of page numbers requested, in order; second
component is the list of rows written to the sink, in order. -/
def scrapEgyContributors {α : Type} (api : SearchApi α) (startPage : Nat) :
    List Nat × List (List (String × α)) :=
  scrapEgyAux api startPage (api.totalCount / 100 + 1 - startPage)

/-- Number of items a faithful mock returns on page `p` for a corpus of
`n` items served 100 per page. -/
def mockPageLen (n p : Nat) : Nat := min 100 (n - (p - 1) * 100)

/-- A concrete faithful mock of the user-search API with `n` total items
(items carry no fields; only row counts matter for the claims using it). -/
def mockUserApi (n : Nat) : SearchApi String :=
  ⟨n, fun p => List.replicate (mockPageLen n p) []⟩

/-- A simulated API with no transient failures whose pages partition its
`totalCount` items 100 at a time. -/
def faithfulPaging {α : Type} (api : SearchApi α) : Prop :=
  ∀ p, 1 ≤ p → (api.items p).length = mockPageLen api.totalCount p

/-! ## Repository-search collector: `scrap_non_egy_repos`
(data_collection.py lines 157-228)

`params` is built once with `"page": start_page` and never reassigned in
the loop body — only the local logging counter `page` advances — so every
request carries the same page number.  `items` below is therefore the
item list the simulated API serves for that one page, constant across
iterations.  The loop guard is `while repos_scraped < total_count`; the
inner `for` writes items one by one and breaks right after the target is
reached.  A response dict is always truthy, so the `else: break` arm is
dead under a simulated API without transient failures; the loop diverges
whenever the page yields no items while the target is unreached, which
the embedding reports through its `Bool` component (`false` = fuel
exhausted with the loop still running, `true` = the loop exited). -/

structure License where
  name : String

structure SearchRepoItem where
  owner_login : String
  name : String
  html_url : String
  language : Option String
  topics : List String
  description : Option String
  open_issues_count : Option Nat
  forks_count : Option Nat
  stargazers_count : Option Nat
  updated_at : Option String
  license : Option License

structure NonEgyRow where
  login : String
  repo_name : String
  repo_html_url : String
  language : Option String
  topics : String
  repo_description : Option String
  open_issues_count : Option Nat
  forks_count : Option Nat
  stargazers_count : Option Nat
  last_repo_commit_date : Option String
  license : Option String

def commaSpace : String := ", "

/-- The `repo_data` dict built at data_collection.py lines 204-217. -/
def buildNonEgyRow (item : SearchRepoItem) : NonEgyRow :=
  { login := item.owner_login
    repo_name := item.name
    repo_html_url := item.html_url
    language := item.language
    topics := String.intercalate commaSpace item.topics
    repo_description := item.description
    open_issues_count := item.open_issues_count
    forks_count := item.forks_count
    stargazers_count := item.stargazers_count
    last_repo_commit_date := item.updated_at
    license := match item.license with
      | some l => some l.name
      | none => none }

def scrapNonEgyAux (items : List SearchRepoItem) (totalCount startPage : Nat) :
    Nat → Nat → List Nat × List NonEgyRow × Bool
  | scraped, 0 =>
    if scraped < totalCount then ([], [], false) else ([], [], true)
  | scraped, fuel + 1 =>
    if scraped < totalCount then
      let written := items.take (totalCount - scraped)
      let r := scrapNonEgyAux items totalCount startPage
        (scraped + written.length) fuel
      (startPage :: r.1, written.map buildNonEgyRow ++ r.2.1, r.2.2)
    else ([], [], true)

/-- One run of `scrap_non_egy_repos` (`total_count` here is the target
item count parameter of the source, not the API's corpus size): requested
page numbers, rows written, and whether the loop exited within `fuel`
iterations. -/
def scrapNonEgyRepos (items : List SearchRepoItem)
    (totalCount startPage fuel : Nat) : List Nat × List NonEgyRow × Bool :=
  scrapNonEgyAux items totalCount startPage 0 fuel

/-! ## Per-user repository collector: `scrap_repos_file`
(data_collection.py lines 87-155) -/

structure UserRow where
  login : String
  url : String

structure RepoItem where
  name : String
  html_url : String
  description : Option String
  language : Option String
  topics : List String
  stargazers_count : Nat
  forks_count : Nat
  open_issues_count : Nat
  updated_at : String
  license : Option License

structure RepoRow where
  login : String
  repo_name : String
  repo_html_url : String
  repo_description : Option String
  language : Option String
  topics : String
  stargazers_count : Nat
  forks_count : Nat
  open_issues_count : Nat
  last_repo_commit_date : String
  license : Option String

def jupyterNotebookLang : String := "Jupyter Notebook"
def pythonLang : String := "Python"

/-- The `repo_json` dict built at data_collection.py lines 124-144.  Note
the language rewrite (`"Jupyter Notebook"` becomes `"Python"`), the
comma-join of `topics`, the rename of `updated_at`, and the extraction of
the license name. -/
def buildRepoJson (login : String) (repo : RepoItem) : RepoRow :=
  { login := login
    repo_name := repo.name
    repo_html_url := repo.html_url
    repo_description := repo.description
    language :=
      if repo.language = some jupyterNotebookLang then some pythonLang
      else repo.language
    topics := String.intercalate commaSpace repo.topics
    stargazers_count := repo.stargazers_count
    forks_count := repo.forks_count
    open_issues_count := repo.open_issues_count
    last_repo_commit_date := repo.updated_at
    license := match repo.license with
      | some l => some l.name
      | none => none }

/-- The enumerated reader loop of `scrap_repos_file`: for each user row,
fetch `{url}/repos`; on a non-`None` response write one row per repo and
stop after index 50000; on `None` skip the user. -/
def scrapReposRows (reposOf : String → Option (List RepoItem)) :
    Nat → List UserRow → List RepoRow
  | _, [] => []
  | i, u :: us =>
    match reposOf u.url with
    | some repos =>
        repos.map (buildRepoJson u.login) ++
          (if i = 50000 then [] else scrapReposRows reposOf (i + 1) us)
    | none => scrapReposRows reposOf (i + 1) us

/-- `from_row` handling (lines 104-107): `if from_row:` is falsy for both
`None` and `0`; otherwise `for _ in range(from_row - 1): next(reader)`
skips `from_row - 1` reader rows.  `next` on an exhausted reader raises
`StopIteration` — there is no surrounding try/except — so the skip
succeeds (`some`) only while `from_row - 1` stays within the available
user rows, and aborts the invocation (`none`) otherwise. -/
def skipFromRow (fromRow : Option Nat) (users : List UserRow) :
    Option (List UserRow) :=
  match fromRow with
  | some n =>
      if n = 0 then some users
      else if n - 1 ≤ users.length then some (users.drop (n - 1))
      else none
  | none => some users

/-! ## Output sink model (for the frame claim)

A CSV file is a list of lines: one header line of column names, data
lines carrying a row each.  Opening a path with mode `"w"` truncates
whatever the file held before; each collector then writes its header
first and streams data rows after it. -/

inductive CsvLine (ρ : Type) where
  | header (cols : List String)
  | data (row : ρ)
deriving DecidableEq

/-- `open(path, "w")`: the previous contents are discarded. -/
def openWriteTruncate {ρ : Type} (_prior : List (CsvLine ρ)) :
    List (CsvLine ρ) := []

/-- File contents produced by one `scrap_egy_contributors` run
(lines 54-85): truncate, header, then the data rows of the run. -/
def runEgyUsersFile {α : Type} (api : SearchApi α) (startPage : Nat)
    (prior : List (CsvLine (List (String × α)))) :
    List (CsvLine (List (String × α))) :=
  openWriteTruncate prior ++
    CsvLine.header EGY_USERS_COLS ::
      ((scrapEgyContributors api startPage).2.map CsvLine.data)

/-- File contents produced by one `scrap_repos_file` invocation
(lines 101-155).  The `from_row` skip loop runs at lines 104-107,
*before* the output sink is opened at line 109: when the skip overruns
the user file it raises `StopIteration` and the invocation aborts with
the previous output contents untouched.  Otherwise the sink is
truncated, the header written, then one row per fetched repository of
the remaining users. -/
def runReposFile (reposOf : String → Option (List RepoItem))
    (users : List UserRow) (fromRow : Option Nat)
    (prior : List (CsvLine RepoRow)) : List (CsvLine RepoRow) :=
  match skipFromRow fromRow users with
  | some remaining =>
      openWriteTruncate prior ++
        CsvLine.header REPO_COLS ::
          ((scrapReposRows reposOf 0 remaining).map CsvLine.data)
  | none => prior

/-- File contents produced by one `scrap_non_egy_repos` run
(lines 179-228): truncate, header, then the rows streamed before the loop
exits (or before fuel runs out). -/
def runNonEgyFile (items : List SearchRepoItem)
    (totalCount startPage fuel : Nat) (prior : List (CsvLine NonEgyRow)) :
    List (CsvLine NonEgyRow) :=
  openWriteTruncate prior ++
    CsvLine.header REPO_COLS ::
      ((scrapNonEgyRepos items totalCount startPage fuel).2.1.map
        CsvLine.data)

/-! ## Recursive tree walker: `GitHubRepoExtractor._get_filenames`
(repos_extractor.py lines 41-72)

`_fetch_recursive(directory)` issues
`GET {base}/contents/{urllib.parse.quote(directory)}` and iterates over
the returned child items.  The remote listing service is modelled as one
oracle from the (unencoded) directory path to an optional child list —
URL-encoding is a transport detail folded into the oracle.  Each child
item carries the server-supplied `name`, `path` and `type` fields of the
contents payload.  `if data:` is falsy both for a failed fetch (`None`)
and for an empty listing, and both yield nothing for that subtree.  The
Python recursion has no depth bound; the embedding bounds it with fuel
and proves its claims for every fuel. -/

def pycExt : PyStr := ".pyc".toList
def pngExt : PyStr := ".png".toList
def jpgExt : PyStr := ".jpg".toList
def jpegExt : PyStr := ".jpeg".toList
def gifExt : PyStr := ".gif".toList

def imagesDirName : PyStr := "images".toList
def imgsDirName : PyStr := "imgs".toList
def pycacheDirName : PyStr := "__pycache__".toList

def fileTypeStr : String := "file"
def dirTypeStr : String := "dir"

def excludedExts : List PyStr := [pycExt, pngExt, jpgExt, jpegExt, gifExt]

def excludedDirNames : List PyStr := [imagesDirName, imgsDirName, pycacheDirName]

/-- `item["name"].lower().endswith((".pyc", ".png", ".jpg", ".jpeg", ".gif"))`
applied to an already lowercased name. -/
def hasExcludedExt (s : PyStr) : Bool :=
  excludedExts.any (fun e => e.isSuffixOf s)

structure ContentsItem where
  name : PyStr
  path : PyStr
  type : String

/-- The contents-listing oracle: directory path to child items, `none`
for a non-`Success` outcome. -/
abbrev ContentsApi := PyStr → Option (List ContentsItem)

/-- Embedding of `_fetch_recursive`: the flattened path sequence the walk
yields from `directory`, with recursion depth bounded by `fuel`. -/
def fetchRecursive (server : ContentsApi) : Nat → PyStr → List PyStr
  | 0, _ => []
  | fuel + 1, directory =>
    match server directory with
    | some data =>
      if data.isEmpty then []
      else
        data.flatMap (fun item =>
          if item.type = fileTypeStr then
            if hasExcludedExt (pyLower item.name) then [] else [item.path]
          else if item.type = dirTypeStr then
            if pyLower item.name ∈ excludedDirNames then []
            else fetchRecursive server fuel item.path
          else [])
    | none => []

/-- `_get_filenames`: the walk starts at the repository root (`""`). -/
def getFilenames (server : ContentsApi) (fuel : Nat) : List PyStr :=
  fetchRecursive server fuel []

/-- The same walk, additionally recording the `name` of every directory
it descends into (first component: yielded paths, identical to
`fetchRecursive`; second: names of directories recursed into). -/
def fetchRecursiveTrace (server : ContentsApi) :
    Nat → PyStr → List PyStr × List PyStr
  | 0, _ => ([], [])
  | fuel + 1, directory =>
    match server directory with
    | some data =>
      if data.isEmpty then ([], [])
      else
        let parts := data.map (fun item =>
          if item.type = fileTypeStr then
            if hasExcludedExt (pyLower item.name) then ([], [])
            else ([item.path], [])
          else if item.type = dirTypeStr then
            if pyLower item.name ∈ excludedDirNames then ([], [])
            else
              let r := fetchRecursiveTrace server fuel item.path
              (r.1, item.name :: r.2)
          else ([], []))
        (parts.flatMap Prod.fst, parts.flatMap Prod.snd)
    | none => ([], [])

/-- Well-formedness of the contents oracle, per the GitHub contents
contract: each child's `path` field is its `name` preceded by the
directory prefix and a slash (or is the bare `name` at the root). -/
def WFContents (server : ContentsApi) : Prop :=
  ∀ d items, server d = some items → ∀ it ∈ items,
    it.path = it.name ∨ ∃ pre, it.path = pre ++ '/' :: it.name

/-! ## Repository aggregator: `GitHubRepoExtractor.process_repo` and its
sub-fetch helpers (repos_extractor.py lines 74-217)

Each sub-fetch helper is embedded over the `Option`-valued outcome of its
one API call; the `RepoApi` oracle packages those outcomes for one
repository.  The tree-walk outcome (`_get_filenames`) enters as the
oracle field `filenames` — the walker itself is the component verified
above.  `process_repo` is embedded as the pair of the resulting record
and the ordered list of sub-fetch families it invoked. -/

def openState : String := "open"
def closedState : String := "closed"

structure Issue where
  state : String

structure PullRequest where
  state : String
  merged_at : Option String

structure Tag where
  name : String

structure RepoApi where
  contributors : Option (List Unit)
  filenames : List PyStr
  commits : Option (List Unit)
  issues : Option (List Issue)
  pulls : Option (List PullRequest)
  tags : Option (List Tag)
  sbom : Option (List PyStr)

/-- `_get_contributors_count` (lines 74-84): `len(data)` if the response
is truthy (non-`None` and non-empty), else `None`. -/
def getContributorsCount (data : Option (List Unit)) : Option Nat :=
  match data with
  | some l => if l.isEmpty then none else some l.length
  | none => none

/-- `_get_commits_count` (lines 86-96): like the contributor count but
falling back to `0`. -/
def getCommitsCount (data : Option (List Unit)) : Nat :=
  match data with
  | some l => if l.isEmpty then 0 else l.length
  | none => 0

/-- `_get_issues_count` (lines 98-115): open/closed partition of a truthy
issues listing. -/
def getIssuesCount (data : Option (List Issue)) : Option (Nat × Nat) :=
  match data with
  | some l =>
    if l.isEmpty then none
    else some (l.countP (fun i => i.state == openState),
               l.countP (fun i => i.state == closedState))
  | none => none

/-- `_get_pull_requests_count` (lines 117-142): open/closed/merged counts
of a truthy pulls listing (merged = `merged_at is not None`). -/
def getPullRequestsCount (data : Option (List PullRequest)) :
    Option (Nat × Nat × Nat) :=
  match data with
  | some l =>
    if l.isEmpty then none
    else some (l.countP (fun p => p.state == openState),
               l.countP (fun p => p.state == closedState),
               l.countP (fun p => p.merged_at.isSome))
  | none => none

/-- `_get_tags` (lines 144-155): tag names of a truthy tags listing. -/
def getTags (data : Option (List Tag)) : Option (List String) :=
  match data with
  | some l => if l.isEmpty then none else some (l.map Tag.name)
  | none => none

/-- The aggregate row `process_repo` returns.  A Python dict key that the
method may leave unset is an outer `Option` (`none` = key absent); the
inner type is the value the source stores, itself optional where the
helper can return `None`. -/
structure AggRecord (γ : Type) where
  candidate : γ
  contributor_count : Option Nat
  filenames : Option (List PyStr)
  commits_count : Option Nat
  issues_count : Option (Option (Nat × Nat))
  pull_requests_count : Option (Option (Nat × Nat × Nat))
  tags : Option (Option (List String))
  dependencies : Option (Option (List PyStr))
  ci_cd_tool : Option (Option String)

def contributorsEp : String := "contributors"
def contentsEp : String := "contents"
def commitsEp : String := "commits"
def issuesEp : String := "issues"
def pullsEp : String := "pulls"
def tagsEp : String := "tags"
def sbomEp : String := "dependency-graph/sbom"

/-- The record returned when the inclusion predicate fails: the candidate
augmented only with the (possibly absent) contributor count. -/
def excludedRecord {γ : Type} (row : γ) (cc : Option Nat) : AggRecord γ :=
  { candidate := row
    contributor_count := cc
    filenames := none
    commits_count := none
    issues_count := none
    pull_requests_count := none
    tags := none
    dependencies := none
    ci_cd_tool := none }

/-- Embedding of `process_repo` (lines 195-217): fetch the contributor
count; enrich only when it is known and strictly greater than 1.  The
second component lists the sub-fetch families invoked, in order (the
whole file-tree walk counts as the single entry `contentsEp`). -/
def processRepo {γ : Type} (api : RepoApi) (row : γ) :
    AggRecord γ × List String :=
  match getContributorsCount api.contributors with
  | some n =>
    if 1 < n then
      ({ candidate := row
         contributor_count := some n
         filenames := some api.filenames
         commits_count := some (getCommitsCount api.commits)
         issues_count := some (getIssuesCount api.issues)
         pull_requests_count := some (getPullRequestsCount api.pulls)
         tags := some (getTags api.tags)
         dependencies := some (getDependencies api.sbom)
         ci_cd_tool := some (getCiCdTool api.filenames) },
       [contributorsEp, contentsEp, commitsEp, issuesEp, pullsEp, tagsEp,
        sbomEp])
    else (excludedRecord row (some n), [contributorsEp])
  | none => (excludedRecord row none, [contributorsEp])

/-! ## Concrete instances used by counterexamples and witnesses -/

/-- The spec's page ceiling, `ceil(totalCount / pageSize)`. -/
def pageCeil (n per : Nat) : Nat := (n + per - 1) / per

def readmeMd : PyStr := "README.md".toList

def pkgRootName : PyStr := "pkg:pypi/root".toList
def pkgFooName : PyStr := "pkg:pypi/foo".toList
def pypiFooSeg : PyStr := "pypi/foo".toList
def fooSeg : PyStr := "foo".toList

/-- A repository-search item with `totalCount`-irrelevant fields fixed;
used to populate the simulated page of `scrap_non_egy_repos`. -/
def demoSearchItem : SearchRepoItem :=
  { owner_login := loginCol
    name := repoNameCol
    html_url := repoHtmlUrlCol
    language := none
    topics := []
    description := none
    open_issues_count := none
    forks_count := none
    stargazers_count := none
    updated_at := none
    license := none }

def demoLogin : String := "someuser"
def demoUserUrl : String := "https://api.github.com/users/someuser"
def extraCol : String := "extra_key"
def extraVal : String := "extra_value"

/-- A user-search payload item carrying the two schema fields plus one
unknown field. -/
def demoUserItem : List (String × String) :=
  [(loginCol, demoLogin), (urlCol, demoUserUrl), (extraCol, extraVal)]

/-- A repository whose reported language is `"Jupyter Notebook"`. -/
def jupItem : RepoItem :=
  { name := repoNameCol
    html_url := repoHtmlUrlCol
    description := none
    language := some jupyterNotebookLang
    topics := []
    stargazers_count := 0
    forks_count := 0
    open_issues_count := 0
    updated_at := extraVal
    license := none }

/-- A repository with no reported language. -/
def noLangItem : RepoItem :=
  { jupItem with language := none }

/-- A repository API oracle whose contributors listing holds exactly one
contributor (so the inclusion predicate fails with a known count). -/
def demoApi1 : RepoApi :=
  { contributors := some [()]
    filenames := []
    commits := none
    issues := none
    pulls := none
    tags := none
    sbom := none }

def mainPyName : PyStr := "main.py".toList

def demoFileItem : ContentsItem :=
  { name := mainPyName, path := mainPyName, type := fileTypeStr }

/-- A one-file contents oracle: the root lists `main.py`, every other
path fails. -/
def demoServer : ContentsApi :=
  fun d => if d = [] then some [demoFileItem] else none

/-- A per-user repository oracle that always fails. -/
def demoReposOf : String → Option (List RepoItem) := fun _ => none

/-- A data line left in the repositories sink by some previous run. -/
def demoPriorLine : CsvLine RepoRow :=
  CsvLine.data (buildRepoJson demoLogin noLangItem)

/-! # Supporting lemmas -/

/-- Projection keeps every schema column untouched: looking up a schema
key in the projected row gives exactly what the payload held. -/
theorem lookup_projectRow {α : Type} (cols : List String)
    (item : List (String × α)) (k : String) (hk : k ∈ cols) :
    (projectRow cols item).lookup k = item.lookup k := by
  induction item with
  | nil => rfl
  | cons kv rest ih =>
    simp only [projectRow, List.filter_cons] at *
    by_cases he : kv.1 = k
    · subst he
      simp [hk, List.lookup]
    · have hne : (k == kv.1) = false := beq_eq_false_iff_ne.mpr (Ne.symm he)
      by_cases hm : kv.1 ∈ cols
      · simpa [hm, List.lookup, hne] using ih
      · simpa [hm, List.lookup, hne] using ih

/-! # Claim theorems -/

/-- Packing a valid codepoint and reading it back is the identity. -/
theorem char_toNat_ofNat_valid {n : Nat} (h : n.isValidChar) :
    (Char.ofNat n).toNat = n := by
  rw [Char.ofNat, dif_pos h]
  rfl

/-- Lowercasing can never produce the capital letter `J`: an upper-case
input lands in the lower-case range, anything else is returned
unchanged and is not `J` by the guard. -/
theorem toLower_ne_J (c : Char) : Char.toLower c ≠ 'J' := by
  intro h
  simp only [Char.toLower] at h
  split at h
  · rename_i hcond
    have hv : (Char.ofNat (Char.toNat c + 32)).toNat = Char.toNat c + 32 :=
      char_toNat_ofNat_valid (Or.inl (by omega))
    rw [h] at hv
    have hj : ('J' : Char).toNat = 74 := rfl
    omega
  · rename_i hcond
    subst h
    exact hcond (by decide)

/-- No lowercased filename can equal the capitalized literal
`"Jenkinsfile"`, whose first character is `J`. -/
theorem pyLower_ne_jenkinsfileName (f : PyStr) :
    pyLower f ≠ jenkinsfileName := by
  intro h
  have hj : jenkinsfileName = 'J' :: "enkinsfile".toList := by decide
  rw [hj] at h
  cases f with
  | nil => simp [pyLower] at h
  | cons c f' =>
    simp only [pyLower, List.map_cons] at h
    injection h with h1 h2
    exact toLower_ne_J c h1

/-- The Jenkins arm of the detector is dead code: no file list ever
yields the Jenkins tool. -/
theorem getCiCdTool_never_jenkins :
    ∀ fs : List PyStr, getCiCdTool fs ≠ some jenkinsName := by
  intro fs h
  cases fs with
  | nil => simp [getCiCdTool] at h
  | cons f r =>
    simp only [getCiCdTool] at h
    split at h
    · exact absurd h (by decide)
    · split at h
      · exact absurd h (by decide)
      · split at h
        · exact absurd h (by decide)
        · split at h
          · exact absurd h (by decide)
          · split at h
            · exact absurd h (by decide)
            · split at h
              · rename_i hcond
                exact pyLower_ne_jenkinsfileName f hcond
              · simp at h

/-- C4, counterexample: a recognized Travis entry that is not the first
element of the file list is ignored — detection returns absent even
though a recognized entry is present, refuting first-match-in-precedence
detection over the whole list. -/
theorem claim4_counterexample :
    getCiCdTool [readmeMd, travisYml] = none ∧
      getCiCdTool [travisYml] = some travisCI := by decide

/-- C4, amended: CI detection inspects only the first entry of the file
list (every arm of the loop body, its `else` included, returns on the
first iteration), so its result is independent of the remaining entries;
a first entry equal to the Travis, GitLab CI, Drone, CircleCI or GitHub
Actions configuration name yields that tool; the Jenkins tool is never
returned, because the lowercased name is compared against the
capitalized literal `"Jenkinsfile"`; any other first entry — and the
empty list — yields absent. -/
theorem claim4_amended :
    (∀ (f : PyStr) (r₁ r₂ : List PyStr),
        getCiCdTool (f :: r₁) = getCiCdTool (f :: r₂)) ∧
      (∀ r : List PyStr, getCiCdTool (travisYml :: r) = some travisCI) ∧
      (∀ r : List PyStr, getCiCdTool (gitlabYml :: r) = some gitlabCI) ∧
      (∀ r : List PyStr, getCiCdTool (droneYml :: r) = some droneCI) ∧
      (∀ r : List PyStr, getCiCdTool (circleYml :: r) = some circleCIName) ∧
      (∀ r : List PyStr,
        getCiCdTool (ghWorkflows :: r) = some githubActionsName) ∧
      (∀ fs : List PyStr, getCiCdTool fs ≠ some jenkinsName) ∧
      (∀ (f : PyStr) (r : List PyStr),
        pyLower f ∉ [travisYml, gitlabYml, droneYml, circleYml,
          ghWorkflows, jenkinsfileName] →
        getCiCdTool (f :: r) = none) ∧
      getCiCdTool [] = none := by
  refine ⟨fun f r₁ r₂ => rfl,
    fun r => show getCiCdTool [travisYml] = some travisCI by decide,
    fun r => show getCiCdTool [gitlabYml] = some gitlabCI by decide,
    fun r => show getCiCdTool [droneYml] = some droneCI by decide,
    fun r => show getCiCdTool [circleYml] = some circleCIName by decide,
    fun r => show getCiCdTool [ghWorkflows] = some githubActionsName by decide,
    getCiCdTool_never_jenkins, ?_, rfl⟩
  intro f r h
  simp only [List.mem_cons, List.not_mem_nil, or_false, not_or] at h
  obtain ⟨h1, h2, h3, h4, h5, h6⟩ := h
  simp [getCiCdTool, h1, h2, h3, h4, h5, h6]

/-- C4, witness: the amended theorem's absent-otherwise part at the
concrete unrecognized first entry `README.md`. -/
theorem claim4_witness : getCiCdTool [readmeMd] = none :=
  claim4_amended.2.2.2.2.2.2.2.1 readmeMd [] (by decide)

/-- C5, counterexample: on a manifest whose packages are
`["pkg:pypi/root", "pkg:pypi/foo"]`, extraction drops the first entry but
normalizes `"pkg:pypi/foo"` to `"pypi/foo"` (the segment after the last
colon), not to `"foo"` as the claim states. -/
theorem claim5_counterexample :
    getDependencies (some [pkgRootName, pkgFooName]) = some [pypiFooSeg] ∧
      lastColonSeg pkgFooName ≠ fooSeg := by decide

/-- C5, amended: extraction drops exactly the first package of the
manifest list and normalizes each remaining name to the segment after its
last colon, so `"pkg:pypi/foo"` yields `"pypi/foo"`. -/
theorem claim5_amended :
    (∀ packages : List PyStr,
        getDependencies (some packages) = some (dropThenNormalize packages)) ∧
      lastColonSeg pkgFooName = pypiFooSeg := by
  refine ⟨fun packages => ?_, by decide⟩
  simp [getDependencies, dropThenNormalize, List.map_drop]

/-- C9, counterexample: a 403 response that carries no
`X-RateLimit-Reset` header makes the handler raise (the Python subscript
`response.headers["X-RateLimit-Reset"]` is a `KeyError`), refuting
"returns without raising for every HTTP response". -/
theorem claim9_counterexample :
    handleApiErrors (⟨403, none, ()⟩ : HttpResponse Unit) 0 =
      Except.error keyErrorRateLimitReset := rfl

/-- C9, amended: for every response that carries the rate-limit-reset
header whenever its status is 403, the handler returns without raising
and maps the status deterministically: 200 yields the decoded payload,
every other status yields the non-success outcome `none`; and every 403
response missing that header instead raises `KeyError` from the bare
header subscript. -/
theorem claim9_amended :
    (∀ (α : Type) (r : HttpResponse α) (now : Int),
        (r.status = 403 → r.rateLimitReset.isSome) →
        handleApiErrors r now =
          Except.ok (if r.status = 200 then some r.body else none)) ∧
      (∀ (α : Type) (r : HttpResponse α) (now : Int),
        r.status = 403 → r.rateLimitReset = none →
        handleApiErrors r now = Except.error keyErrorRateLimitReset) := by
  constructor
  · intro α r now h
    by_cases h200 : r.status = 200
    · simp [handleApiErrors, h200]
    · by_cases h403 : r.status = 403
      · obtain ⟨t, ht⟩ := Option.isSome_iff_exists.mp (h h403)
        simp [handleApiErrors, h200, h403, ht]
      · simp [handleApiErrors, h200, h403, ite_self]
  · intro α r now h403 hnone
    have h200 : ¬ r.status = 200 := by omega
    simp [handleApiErrors, h200, h403, hnone]

/-- C9, witness: the amended theorem applied to a concrete 404 response
and to a concrete header-less 403 response. -/
theorem claim9_witness :
    handleApiErrors (⟨404, none, ()⟩ : HttpResponse Unit) 0 =
        Except.ok none ∧
      handleApiErrors (⟨403, none, ()⟩ : HttpResponse Unit) 0 =
        Except.error keyErrorRateLimitReset :=
  ⟨claim9_amended.1 Unit ⟨404, none, ()⟩ 0 (fun h => absurd h (by decide)),
    claim9_amended.2 Unit ⟨403, none, ()⟩ 0 rfl rfl⟩

/-- The pages requested by the user-search loop, for any fuel: the
contiguous block starting at `page`, cut off by the loop's own bound
`totalCount / 100 + 1`. -/
theorem scrapEgyAux_pages {α : Type} (api : SearchApi α) :
    ∀ fuel page : Nat,
      (scrapEgyAux api page fuel).1 =
        List.range' page
          (min fuel (api.totalCount / 100 + 1 - page) + 1) := by
  intro fuel
  induction fuel with
  | zero => intro page; simp [scrapEgyAux]
  | succ fuel ih =>
    intro page
    by_cases hstop : page + 1 > api.totalCount / 100 + 1
    · have h0 : api.totalCount / 100 + 1 - page = 0 := by omega
      simp only [scrapEgyAux]
      rw [if_pos hstop]
      simp [h0]
    · simp only [scrapEgyAux]
      rw [if_neg hstop]
      have hmin : min (fuel + 1) (api.totalCount / 100 + 1 - page) + 1 =
          (min fuel (api.totalCount / 100 + 1 - (page + 1)) + 1) + 1 := by
        omega
      rw [hmin, List.range'_succ]
      simp [ih]

/-- Row count of the user-search loop under a faithful simulated API:
from page `page` (within bounds, with enough fuel) the loop writes every
remaining item. -/
theorem scrapEgyAux_rows_length {α : Type} (api : SearchApi α)
    (hf : faithfulPaging api) :
    ∀ fuel page : Nat, 1 ≤ page →
      page ≤ api.totalCount / 100 + 1 →
      api.totalCount / 100 + 1 ≤ page + fuel →
      (scrapEgyAux api page fuel).2.length =
        api.totalCount - (page - 1) * 100 := by
  intro fuel
  induction fuel with
  | zero =>
    intro page h1 h2 h3
    simp [scrapEgyAux, hf page h1, mockPageLen]
    omega
  | succ fuel ih =>
    intro page h1 h2 h3
    by_cases hstop : page + 1 > api.totalCount / 100 + 1
    · simp only [scrapEgyAux]
      rw [if_pos hstop]
      simp [hf page h1, mockPageLen]
      omega
    · simp only [scrapEgyAux]
      rw [if_neg hstop]
      have hrec := ih (page + 1) (by omega) (by omega) (by omega)
      simp [hf page h1, mockPageLen, hrec]
      omega

/-- With no target bound, a full user-search run writes exactly
`totalCount` rows (the spec's `totalCount` mode of the row-count
property). -/
theorem scrapEgyContributors_rows_total {α : Type} (api : SearchApi α)
    (hf : faithfulPaging api) :
    (scrapEgyContributors api 1).2.length = api.totalCount := by
  rw [scrapEgyContributors]
  have h := scrapEgyAux_rows_length api hf
    (api.totalCount / 100 + 1 - 1) 1 (Nat.le_refl 1) (by omega) (by omega)
  simpa using h

/-- The user-search loop's requests are strictly increasing (the half of
the monotonicity claim that the code does satisfy). -/
theorem scrapEgyContributors_pages_increasing {α : Type}
    (api : SearchApi α) (startPage : Nat) :
    List.Chain' (fun a b => a < b) (scrapEgyContributors api startPage).1 := by
  rw [scrapEgyContributors, scrapEgyAux_pages]
  exact (List.pairwise_lt_range' _ _).chain'

/-- Every page number the repository-search loop sends equals the start
page: `params["page"]` is never reassigned inside the loop. -/
theorem scrapNonEgyAux_pages_constant (items : List SearchRepoItem)
    (totalCount startPage : Nat) :
    ∀ fuel scraped p,
      p ∈ (scrapNonEgyAux items totalCount startPage scraped fuel).1 →
      p = startPage := by
  intro fuel
  induction fuel with
  | zero =>
    intro scraped p hp
    simp only [scrapNonEgyAux] at hp
    split at hp <;> simp at hp
  | succ fuel ih =>
    intro scraped p hp
    simp only [scrapNonEgyAux] at hp
    split at hp
    · rcases List.mem_cons.mp hp with h | h
      · exact h
      · exact ih _ p h
    · simp at hp

/-- C1: at the failing input (simulated repository search with 50 items
on its page, target 120, start page 1), the run issues three requests,
all for page 1 — the page used for the next request after a success is
never greater than the previous one, refuting strict monotonic pagination
for the repository-search collection. -/
theorem claim1_repo_search_page_constant :
    (scrapNonEgyRepos (List.replicate 50 demoSearchItem) 120 1 10).1 =
        [1, 1, 1] ∧
      ¬ List.Chain' (fun a b => a < b)
          (scrapNonEgyRepos (List.replicate 50 demoSearchItem) 120 1 10).1 := by
  refine ⟨by rfl, fun h => ?_⟩
  rw [show (scrapNonEgyRepos (List.replicate 50 demoSearchItem) 120 1 10).1 =
      [1, 1, 1] from rfl] at h
  simp [List.chain'_cons] at h

/-- C2: at the same failing input the loop terminates only after writing
120 rows — re-serving page 1 each iteration — although
`min(totalCount, targetCount) = min 50 120 = 50`, refuting the row-count
property for the repository-search collection. -/
theorem claim2_rows_not_min_at_failing_input :
    (scrapNonEgyRepos (List.replicate 50 demoSearchItem) 120 1 10).2.1.length =
        120 ∧
      (scrapNonEgyRepos (List.replicate 50 demoSearchItem) 120 1 10).2.2 =
        true ∧
      120 ≠ min 50 120 := by
  refine ⟨by rfl, by rfl, by decide⟩

/-- C3, counterexample: with `totalCount = 100` and `pageSize = 100` the
loop requests page 2, which exceeds `ceil(100 / 100) = 1` — the code's
bound is `totalCount // pageSize + 1`, one page beyond the ceiling
whenever the page size divides the total. -/
theorem claim3_counterexample :
    ¬ (∀ p ∈ (scrapEgyContributors (mockUserApi 100) 1).1,
        p ≤ pageCeil 100 100) := by decide

/-- C3, amended: the user-search loop requests exactly the pages
`startPage, …, max startPage (totalCount / 100 + 1)` and terminates
exactly when the page number exceeds `totalCount / 100 + 1` (floor
division plus one, which is `ceil` except when 100 divides the total);
with `totalCount = 150` starting at page 1, exactly pages 1 and 2 are
fetched and 150 rows are written. -/
theorem claim3_amended :
    (∀ (α : Type) (api : SearchApi α) (startPage : Nat),
        (scrapEgyContributors api startPage).1 =
          List.range' startPage
            (api.totalCount / 100 + 1 - startPage + 1)) ∧
      (scrapEgyContributors (mockUserApi 150) 1).1 = [1, 2] ∧
      (scrapEgyContributors (mockUserApi 150) 1).2.length = 150 := by
  refine ⟨fun α api startPage => ?_, by rfl, by rfl⟩
  rw [scrapEgyContributors, scrapEgyAux_pages]
  simp [Nat.min_self]

/-- C6: when the fetched contributor count is absent or at most 1, the
aggregator returns the candidate augmented only with that count — every
enrichment field stays absent — and the only sub-fetch issued is the
contributors call itself. -/
theorem claim6_excluded_no_enrichment {γ : Type} (api : RepoApi) (row : γ)
    (h : getContributorsCount api.contributors = none ∨
      ∃ n, getContributorsCount api.contributors = some n ∧ n ≤ 1) :
    processRepo api row =
      (excludedRecord row (getContributorsCount api.contributors),
        [contributorsEp]) := by
  rcases h with h | ⟨n, hn, hle⟩
  · simp [processRepo, h]
  · have hlt : ¬ 1 < n := by omega
    simp [processRepo, hn, hlt]

/-- C6, witness: a contributors listing of length 1 takes the excluded
path. -/
theorem claim6_witness :
    processRepo demoApi1 (0 : Nat) =
      (excludedRecord (0 : Nat) (some 1), [contributorsEp]) :=
  claim6_excluded_no_enrichment demoApi1 0
    (Or.inr ⟨1, rfl, Nat.le_refl 1⟩)

/-- C7, counterexample: a repository item whose payload language is
`"Jupyter Notebook"` is written with language `"Python"` — the written
value differs from the payload value for the schema column `language`,
refuting verbatim pass-through for the repository collections. -/
theorem claim7_counterexample :
    (buildRepoJson demoLogin jupItem).language = some pythonLang ∧
      jupItem.language = some jupyterNotebookLang ∧
      some pythonLang ≠ jupItem.language := by decide

/-- C7, amended: the user-search collection writes each item projected
verbatim onto its schema (every schema column's written value equals the
payload value); the repository collections do not write verbatim rows —
both comma-join `topics` into one string, replace the license object by
its name and store `updated_at` under `last_repo_commit_date` — and for
the `language` column, `scrap_repos_file` rewrites `"Jupyter Notebook"`
to `"Python"` while passing every other value through verbatim, whereas
`scrap_non_egy_repos` passes `language` through verbatim. -/
theorem claim7_amended :
    (∀ (α : Type) (item : List (String × α)) (k : String),
        k ∈ EGY_USERS_COLS →
          (projectRow EGY_USERS_COLS item).lookup k = item.lookup k) ∧
      (∀ (login : String) (repo : RepoItem),
        repo.language ≠ some jupyterNotebookLang →
          (buildRepoJson login repo).language = repo.language) ∧
      (∀ (login : String) (repo : RepoItem),
        (buildRepoJson login repo).topics =
            String.intercalate commaSpace repo.topics ∧
          (buildRepoJson login repo).last_repo_commit_date =
            repo.updated_at ∧
          (buildRepoJson login repo).license =
            repo.license.map License.name) ∧
      (∀ item : SearchRepoItem,
        (buildNonEgyRow item).language = item.language ∧
          (buildNonEgyRow item).topics =
            String.intercalate commaSpace item.topics ∧
          (buildNonEgyRow item).last_repo_commit_date = item.updated_at ∧
          (buildNonEgyRow item).license = item.license.map License.name) := by
  refine ⟨fun α item k hk => lookup_projectRow _ item k hk, ?_, ?_, ?_⟩
  · intro login repo hne
    simp [buildRepoJson, hne]
  · intro login repo
    obtain ⟨_, _, _, _, _, _, _, _, _, lic⟩ := repo
    exact ⟨rfl, rfl, by cases lic <;> rfl⟩
  · intro item
    obtain ⟨_, _, _, _, _, _, _, _, _, _, lic⟩ := item
    exact ⟨rfl, rfl, rfl, by cases lic <;> rfl⟩

/-- C7, witness: the amended theorem at a concrete payload item, a
concrete language-free repository and a concrete search item. -/
theorem claim7_witness :
    (projectRow EGY_USERS_COLS demoUserItem).lookup loginCol =
        demoUserItem.lookup loginCol ∧
      (buildRepoJson demoLogin noLangItem).language = noLangItem.language ∧
      (buildNonEgyRow demoSearchItem).language = demoSearchItem.language :=
  ⟨claim7_amended.1 String demoUserItem loginCol (by decide),
    claim7_amended.2.1 demoLogin noLangItem (by decide),
    (claim7_amended.2.2.2 demoSearchItem).1⟩

/-- C10, counterexample: `scrap_repos_file` invoked with `from_row = 2`
against an empty user file raises `StopIteration` in the skip loop
(line 107) before the output sink is opened (line 109) — the previous
output survives unchanged and no fresh header is written, refuting the
claim's universal truncate-and-header-first prior-independence. -/
theorem claim10_counterexample :
    runReposFile demoReposOf [] (some 2) [demoPriorLine] = [demoPriorLine] ∧
      (runReposFile demoReposOf [] (some 2) [demoPriorLine]).head? ≠
        some (CsvLine.header REPO_COLS) := by
  refine ⟨rfl, fun h => ?_⟩
  simp [runReposFile, skipFromRow, demoPriorLine] at h

/-- C10, amended: the user-search and repository-search collectors, and
every `scrap_repos_file` invocation whose `from_row` skip stays within
the user file, truncate their sink (mode `"w"`), write the header line
before any data, and produce contents independent of whatever the file
held before — the skip-count only changes which input rows are read,
never appending to previous output; but when `from_row - 1` exceeds the
available user rows, the skip loop raises `StopIteration` before the
sink is opened and the previous output is preserved unchanged. -/
theorem claim10_amended :
    (∀ (α : Type) (api : SearchApi α) (s : Nat)
        (p₁ p₂ : List (CsvLine (List (String × α)))),
        runEgyUsersFile api s p₁ = runEgyUsersFile api s p₂) ∧
      (∀ (α : Type) (api : SearchApi α) (s : Nat)
        (p : List (CsvLine (List (String × α)))),
        (runEgyUsersFile api s p).head? =
          some (CsvLine.header EGY_USERS_COLS)) ∧
      (∀ (reposOf : String → Option (List RepoItem)) (users : List UserRow)
        (fromRow : Option Nat) (remaining : List UserRow)
        (p₁ p₂ : List (CsvLine RepoRow)),
        skipFromRow fromRow users = some remaining →
        runReposFile reposOf users fromRow p₁ =
          runReposFile reposOf users fromRow p₂) ∧
      (∀ (reposOf : String → Option (List RepoItem)) (users : List UserRow)
        (fromRow : Option Nat) (remaining : List UserRow)
        (p : List (CsvLine RepoRow)),
        skipFromRow fromRow users = some remaining →
        (runReposFile reposOf users fromRow p).head? =
          some (CsvLine.header REPO_COLS)) ∧
      (∀ (reposOf : String → Option (List RepoItem)) (users : List UserRow)
        (fromRow : Option Nat) (p : List (CsvLine RepoRow)),
        skipFromRow fromRow users = none →
        runReposFile reposOf users fromRow p = p) ∧
      (∀ (items : List SearchRepoItem) (t s fuel : Nat)
        (p₁ p₂ : List (CsvLine NonEgyRow)),
        runNonEgyFile items t s fuel p₁ = runNonEgyFile items t s fuel p₂) ∧
      (∀ (items : List SearchRepoItem) (t s fuel : Nat)
        (p : List (CsvLine NonEgyRow)),
        (runNonEgyFile items t s fuel p).head? =
          some (CsvLine.header REPO_COLS)) := by
  refine ⟨fun _ _ _ _ _ => rfl, fun _ _ _ _ => rfl, ?_, ?_, ?_,
    fun _ _ _ _ _ _ => rfl, fun _ _ _ _ _ => rfl⟩
  · intro reposOf users fromRow remaining p₁ p₂ h
    simp [runReposFile, h, openWriteTruncate]
  · intro reposOf users fromRow remaining p h
    simp [runReposFile, h, openWriteTruncate]
  · intro reposOf users fromRow p h
    simp [runReposFile, h]

/-- C10, witness: the amended theorem at an absent `from_row` (skip
succeeds trivially) and at the aborting `from_row = 2` on an empty user
file. -/
theorem claim10_witness :
    runReposFile demoReposOf [] none [demoPriorLine] =
        runReposFile demoReposOf [] none [] ∧
      (runReposFile demoReposOf [] none [demoPriorLine]).head? =
        some (CsvLine.header REPO_COLS) ∧
      runReposFile demoReposOf [] (some 3) [demoPriorLine] =
        [demoPriorLine] :=
  ⟨claim10_amended.2.2.1 demoReposOf [] none [] [demoPriorLine] [] rfl,
    claim10_amended.2.2.2.1 demoReposOf [] none [] [demoPriorLine] rfl,
    claim10_amended.2.2.2.2.1 demoReposOf [] (some 3) [demoPriorLine] rfl⟩

/-- A list avoiding a separator element that is a suffix of
`A ++ x :: B` is already a suffix of `B`. -/
theorem suffix_through_sep {β : Type} {e A B : List β} {x : β}
    (hx : x ∉ e) (h : e <:+ A ++ x :: B) : e <:+ B := by
  induction A with
  | nil =>
    rcases List.suffix_cons_iff.mp h with h' | h'
    · exact absurd (h' ▸ List.mem_cons_self x B) hx
    · exact h'
  | cons a A ih =>
    rw [List.cons_append] at h
    rcases List.suffix_cons_iff.mp h with h' | h'
    · refine absurd ?_ hx
      rw [h']
      exact List.mem_cons_of_mem a
        (List.mem_append_right A (List.mem_cons_self x B))
    · exact ih h'

/-- Lowercasing distributes over a path built from a directory prefix, a
slash and a file name. -/
theorem pyLower_append_sep (A B : PyStr) :
    pyLower (A ++ '/' :: B) = pyLower A ++ '/' :: pyLower B := by
  simp only [pyLower, List.map_append, List.map_cons]
  rw [show Char.toLower '/' = '/' from rfl]

/-- No excluded extension contains a slash. -/
theorem slash_not_mem_excludedExts : ∀ e ∈ excludedExts, ('/' : Char) ∉ e := by
  decide

/-- Reading the walker's file guard: a failed `hasExcludedExt` check
means no excluded extension is a suffix. -/
theorem not_suffix_of_hasExcludedExt_eq_false {s : PyStr}
    (h : hasExcludedExt s = false) : ∀ e ∈ excludedExts, ¬ e <:+ s := by
  intro e he hsuf
  rw [hasExcludedExt, List.any_eq_false] at h
  exact h e he (by simpa using hsuf)

/-- The instrumented walk yields exactly what the plain walk yields. -/
theorem fetchRecursiveTrace_fst (server : ContentsApi) :
    ∀ fuel directory,
      (fetchRecursiveTrace server fuel directory).1 =
        fetchRecursive server fuel directory := by
  intro fuel
  induction fuel with
  | zero => intro d; rfl
  | succ fuel ih =>
    intro d
    simp only [fetchRecursive, fetchRecursiveTrace]
    cases hs : server d with
    | none => rfl
    | some data =>
      dsimp only
      by_cases hemp : data.isEmpty
      · rw [if_pos hemp, if_pos hemp]
      · rw [if_neg hemp, if_neg hemp]
        clear hemp hs
        induction data with
        | nil => rfl
        | cons item rest ihdata =>
          simp only [List.map_cons, List.flatMap_cons, ihdata]
          congr 1
          by_cases hfile : item.type = fileTypeStr
          · rw [if_pos hfile, if_pos hfile]
            by_cases hext : hasExcludedExt (pyLower item.name)
            · rw [if_pos hext, if_pos hext]
            · rw [if_neg hext, if_neg hext]
          · rw [if_neg hfile, if_neg hfile]
            by_cases hdir : item.type = dirTypeStr
            · rw [if_pos hdir, if_pos hdir]
              by_cases hexcl : pyLower item.name ∈ excludedDirNames
              · rw [if_pos hexcl, if_pos hexcl]
              · rw [if_neg hexcl, if_neg hexcl]
                exact ih item.path
            · rw [if_neg hdir, if_neg hdir]

/-- C8: over any well-formed contents oracle and any recursion depth,
the tree walk never yields a path whose lowercased form ends with an
excluded extension (`.pyc`, `.png`, `.jpg`, `.jpeg`, `.gif`), and never
descends into a directory whose lowercased name is excluded (`images`,
`imgs`, `__pycache__`). -/
theorem claim8_walker_filters (server : ContentsApi)
    (hwf : WFContents server) :
    ∀ (fuel : Nat) (directory : PyStr),
      (∀ p ∈ fetchRecursive server fuel directory,
        ∀ e ∈ excludedExts, ¬ e <:+ pyLower p) ∧
      (∀ nm ∈ (fetchRecursiveTrace server fuel directory).2,
        pyLower nm ∉ excludedDirNames) := by
  intro fuel
  induction fuel with
  | zero =>
    intro d
    exact ⟨fun p hp => by simp [fetchRecursive] at hp,
      fun nm hnm => by simp [fetchRecursiveTrace] at hnm⟩
  | succ fuel ih =>
    intro d
    constructor
    · intro p hp e he
      simp only [fetchRecursive] at hp
      cases hs : server d with
      | none => rw [hs] at hp; simp at hp
      | some data =>
        rw [hs] at hp
        dsimp only at hp
        by_cases hemp : data.isEmpty
        · rw [if_pos hemp] at hp; simp at hp
        · rw [if_neg hemp] at hp
          obtain ⟨item, hitem, hpin⟩ := List.mem_flatMap.mp hp
          by_cases hfile : item.type = fileTypeStr
          · rw [if_pos hfile] at hpin
            by_cases hext : hasExcludedExt (pyLower item.name)
            · rw [if_pos hext] at hpin; simp at hpin
            · rw [if_neg hext] at hpin
              have hp' : p = item.path := by simpa using hpin
              have hextf : hasExcludedExt (pyLower item.name) = false := by
                simpa using hext
              have hnosuf := not_suffix_of_hasExcludedExt_eq_false hextf
              subst hp'
              rcases hwf d data hs item hitem with hpath | ⟨pre, hpre⟩
              · rw [hpath]
                exact hnosuf e he
              · rw [hpre, pyLower_append_sep]
                intro hsuf
                exact hnosuf e he
                  (suffix_through_sep (slash_not_mem_excludedExts e he) hsuf)
          · rw [if_neg hfile] at hpin
            by_cases hdir : item.type = dirTypeStr
            · rw [if_pos hdir] at hpin
              by_cases hexcl : pyLower item.name ∈ excludedDirNames
              · rw [if_pos hexcl] at hpin; simp at hpin
              · rw [if_neg hexcl] at hpin
                exact (ih item.path).1 p hpin e he
            · rw [if_neg hdir] at hpin; simp at hpin
    · intro nm hnm
      simp only [fetchRecursiveTrace] at hnm
      cases hs : server d with
      | none => rw [hs] at hnm; simp at hnm
      | some data =>
        rw [hs] at hnm
        dsimp only at hnm
        by_cases hemp : data.isEmpty
        · rw [if_pos hemp] at hnm; simp at hnm
        · rw [if_neg hemp] at hnm
          obtain ⟨pr, hpr, hin⟩ := List.mem_flatMap.mp hnm
          obtain ⟨item, hitem, hfi⟩ := List.mem_map.mp hpr
          rw [← hfi] at hin
          by_cases hfile : item.type = fileTypeStr
          · rw [if_pos hfile] at hin
            by_cases hext : hasExcludedExt (pyLower item.name)
            · rw [if_pos hext] at hin; simp at hin
            · rw [if_neg hext] at hin; simp at hin
          · rw [if_neg hfile] at hin
            by_cases hdir : item.type = dirTypeStr
            · rw [if_pos hdir] at hin
              by_cases hexcl : pyLower item.name ∈ excludedDirNames
              · rw [if_pos hexcl] at hin; simp at hin
              · rw [if_neg hexcl] at hin
                dsimp only at hin
                rcases List.mem_cons.mp hin with h' | h'
                · rw [h']
                  exact hexcl
                · exact (ih item.path).2 nm h'
            · rw [if_neg hdir] at hin; simp at hin

/-- C8, witness: the claim theorem applied to the concrete one-file
oracle at depth 2 from the root, instantiated at the one path the walk
yields there and the `.pyc` extension. -/
theorem claim8_witness : ¬ pycExt <:+ pyLower mainPyName :=
  (claim8_walker_filters demoServer
    (by
      intro d items h it hit
      simp only [demoServer] at h
      by_cases hd : d = []
      · rw [if_pos hd] at h
        injection h with h'
        rw [← h'] at hit
        have hit' : it = demoFileItem := by simpa using hit
        subst hit'
        exact Or.inl rfl
      · rw [if_neg hd] at h
        exact absurd h (by simp))
    2 []).1 mainPyName (by decide) pycExt (by decide)

end GhAnalysis
